import Mathlib

/-!
Shallow embedding of the retrieval-and-answer core of the AI Knowledge
Assistant repository (src/app/services/rag_service.py and
src/app/services/chat_service.py), together with proofs about the claims
of the specification.

Modelling conventions:
- vectors are lists of rationals (the code uses float32 arrays; the claims
  under study are about structure, ordering and state, not rounding);
- the external embedding and generation backends are parameters: a function
  from the request text to the backend outcome;
- the FAISS flat L2 index is modelled as the list of its stored vectors, in
  row order; `index.search` is modelled as sorting all rows by squared
  Euclidean distance to the query and taking the first k;
- the Redis response cache is an association list from the query string to
  the stored response record (the code keys by the MD5 hex digest of the
  query; distinct queries are assumed to have distinct digests);
- Python exceptions become `Except`: a function that can observably mutate
  state before raising returns the mutated state in its error value, the
  way the in-place mutation of `self.documents` survives an exception.
-/

namespace RAG

/-- A vector, as stored in the FAISS index. -/
abbrev Vec := List ℚ

/-- One chunk-metadata record, the dict appended to `self.documents` in
`RAGService.index_document`. -/
structure Chunk where
  document_id : Int
  filename : String
  chunk_index : Nat
  content : String
deriving Repr, DecidableEq

/-- The mutable state of `RAGService`: the FAISS index (`self.index`,
modelled as its list of row vectors) and the chunk-metadata list
(`self.documents`). -/
structure RAGState where
  index : List Vec
  documents : List Chunk
deriving Repr, DecidableEq

/-- A source dict as built by `RAGService.get_context_for_query`. -/
structure Source where
  document_id : Int
  filename : String
  relevance_score : ℚ
deriving Repr, DecidableEq

/-- `self.dimension = 768  # nomic-embed-text dimension` in
`RAGService.__init__`. -/
def dimension : Nat := 768

/-- Outcome of one call to the Ollama embeddings endpoint, as seen by
`RAGService._get_embedding`: the transport can fail (`requests.post`
raises), the response can be non-success (`raise_for_status` raises), or a
vector of arbitrary length comes back. -/
inductive EmbedResponse where
  | transportError : EmbedResponse
  | httpError : Nat → EmbedResponse
  | success : Vec → EmbedResponse
deriving Repr, DecidableEq

/-- The error escaping `RAGService._get_embedding`: the method logs and
re-raises the underlying exception, so the cause stays distinguishable
(connection error vs HTTP error) but no dedicated error types exist. -/
inductive EmbedErr where
  | transport : EmbedErr
  | http : Nat → EmbedErr
deriving Repr, DecidableEq

/-- An embedding backend: what the Ollama embeddings endpoint answers for
each prompt text. -/
abbrev EmbedBackend := String → EmbedResponse

/-- `RAGService._get_embedding` (rag_service.py lines 76-99): POST the text
to Ollama, `raise_for_status`, then return
`np.array(response.json()["embedding"])` unchanged.  There is no check of
the returned vector against `self.dimension`; exceptions are logged and
re-raised. -/
def get_embedding (backend : EmbedBackend) (text : String) :
    Except EmbedErr Vec :=
  match backend text with
  | .transportError => .error .transport
  | .httpError code => .error (.http code)
  | .success v => .ok v

/-- Squared Euclidean distance, the metric of `faiss.IndexFlatL2`. -/
def sqDist (u v : Vec) : ℚ :=
  ((u.zip v).map (fun p => (p.1 - p.2) ^ 2)).sum

/-- Model of `faiss.IndexFlatL2.search(query_vector, k)` restricted to one
query row: every stored row paired with its squared L2 distance to the
query, sorted by ascending distance, first `k` taken.  FAISS returns row
ids with their distances in ascending distance order; `-1` padding never
occurs because `index_document`/`search_similar` always pass
`k ≤ ntotal`. -/
def faissSearch (index : List Vec) (q : Vec) (k : Nat) : List (Nat × ℚ) :=
  ((index.enum.map (fun p => (p.1, sqDist q p.2))).insertionSort
    (fun a b => a.2 ≤ b.2)).take k

/-- Model of `faiss.IndexFlatL2.add(embeddings_array)` as called at
rag_service.py line 134-135: `np.array(embeddings)` on an empty Python
list has shape `(0,)` and `add` fails unpacking it, a ragged list of
vectors fails to form a 2-D array, and a well-formed `(n, d)` array with
`d ≠ self.dimension` is rejected by FAISS; otherwise the rows are appended
in order. -/
def faissAdd (index : List Vec) (embs : List Vec) : Except Unit (List Vec) :=
  if embs = [] then .error ()
  else if embs.all (fun v => v.length = dimension) then .ok (index ++ embs)
  else .error ()

/-- The embedding loop of `RAGService.index_document` (lines 120-131): for
each chunk, first `self._get_embedding(chunk)`, then
`self.documents.append({...})`.  On the first failing embedding call the
exception propagates; the error value carries the chunk records already
appended before the failure (the in-place mutations that survive the
exception), the success value carries the embeddings and all chunk
records. -/
def embedChunks (backend : EmbedBackend) (document_id : Int)
    (filename : String) :
    List String → Nat → Except (EmbedErr × List Chunk) (List Vec × List Chunk)
  | [], _ => .ok ([], [])
  | chunk :: rest, i =>
    match get_embedding backend chunk with
    | .error e => .error (e, [])
    | .ok v =>
      let record : Chunk := ⟨document_id, filename, i, chunk⟩
      match embedChunks backend document_id filename rest (i + 1) with
      | .error (e, docs) => .error (e, record :: docs)
      | .ok (vs, docs) => .ok (v :: vs, record :: docs)

/-- The chunk records `index_document` builds for the chunks from position
`i` on: record for chunk `c` at position `j` holds the document id, the
filename, the chunk index `j` and the chunk text. -/
def chunkRecordsFrom (document_id : Int) (filename : String) :
    Nat → List String → List Chunk
  | _, [] => []
  | i, chunk :: rest =>
    ⟨document_id, filename, i, chunk⟩
      :: chunkRecordsFrom document_id filename (i + 1) rest

/-- The chunk records `index_document` builds for a chunk list, in order. -/
def chunkRecords (document_id : Int) (filename : String)
    (chunks : List String) : List Chunk :=
  chunkRecordsFrom document_id filename 0 chunks

/-- Error escaping `RAGService.index_document`: an embedding failure
re-raised from `_get_embedding`, or the `ValueError`/FAISS failure of
`np.array`/`index.add` on an empty or mis-shaped batch. -/
inductive IndexErr where
  | embed : EmbedErr → IndexErr
  | add : IndexErr
deriving Repr, DecidableEq

/-- `RAGService.index_document(document_id, filename, content)`
(rag_service.py lines 101-143): split the content into chunks, embed each
chunk appending its metadata record to `self.documents` as it goes, then
add all embeddings to the FAISS index in one `index.add` call, save, and
return `f"doc_{document_id}_{len(chunks)}_chunks"`.  The text splitter is
an external library (`RecursiveCharacterTextSplitter`) and is a parameter.
An exception leaves the in-place mutations done so far, so the error value
is the post-exception state.  `_save_index` swallows its own errors and
does not change the in-memory state. -/
def index_document (split : String → List String) (backend : EmbedBackend)
    (document_id : Int) (filename : String) (content : String)
    (s : RAGState) : Except (IndexErr × RAGState) (RAGState × String) :=
  let chunks := split content
  match embedChunks backend document_id filename chunks 0 with
  | .error (e, partialDocs) =>
      .error (.embed e, { s with documents := s.documents ++ partialDocs })
  | .ok (embs, docs) =>
      let s1 : RAGState := { s with documents := s.documents ++ docs }
      match faissAdd s1.index embs with
      | .error _ => .error (.add, s1)
      | .ok newIndex =>
          .ok ({ s1 with index := newIndex },
               "doc_" ++ toString document_id ++ "_"
                 ++ toString chunks.length ++ "_chunks")

/-- `RAGService.search_similar(query, top_k)` (rag_service.py lines
145-179): empty index short-circuits to `[]` before any embedding call;
otherwise embed the query, search FAISS with `min(top_k, ntotal)`, and for
each returned row keep it only `if idx < len(self.documents)`, converting
the L2 distance to `1 / (1 + distance)`. -/
def search_similar (backend : EmbedBackend) (top_k : Nat) (s : RAGState)
    (query : String) : Except EmbedErr (List (Chunk × ℚ)) :=
  if s.index.length = 0 then .ok []
  else
    match get_embedding backend query with
    | .error e => .error e
    | .ok qv =>
      let rows := faissSearch s.index qv (min top_k s.index.length)
      .ok (rows.filterMap (fun p =>
        if h : p.1 < s.documents.length then
          some (s.documents.get ⟨p.1, h⟩, 1 / (1 + p.2))
        else none))

/-- The source-list accumulation of `RAGService.get_context_for_query`
(lines 199-212): walk the ranked chunks, keeping one source dict per
`document_id` not yet in `seen_docs`. -/
def buildSources (seen : List Int) : List (Chunk × ℚ) → List Source
  | [] => []
  | (chunk, score) :: rest =>
    if chunk.document_id ∈ seen then buildSources seen rest
    else ⟨chunk.document_id, chunk.filename, score⟩
      :: buildSources (chunk.document_id :: seen) rest

/-- `RAGService.get_context_for_query(query)` (rag_service.py lines
181-215): retrieve `search_similar(query)`, return `("", [])` on no
results, otherwise join the chunk contents with the separator and build
the deduplicated source list. -/
def get_context_for_query (backend : EmbedBackend) (top_k : Nat)
    (s : RAGState) (query : String) :
    Except EmbedErr (String × List Source) :=
  match search_similar backend top_k s query with
  | .error e => .error e
  | .ok [] => .ok ("", [])
  | .ok similar_chunks =>
      let context_parts := similar_chunks.map (fun p => p.1.content)
      let sources := buildSources [] similar_chunks
      .ok (String.intercalate "\n\n---\n\n" context_parts, sources)

/-- One `index_document` call: the splitter and embedding backend in
effect for the call, and the `document_id`, `filename` and `content`
arguments. -/
abbrev IndexCall :=
  (String → List String) × EmbedBackend × Int × String × String

/-- Run a sequence of `index_document` calls, threading the service state;
`none` as soon as one call fails (so `some` means every call in the
sequence succeeded). -/
def runIndexCalls : RAGState → List IndexCall → Option RAGState
  | s, [] => some s
  | s, (split, backend, d, f, c) :: rest =>
    match index_document split backend d f c s with
    | .ok (s', _) => runIndexCalls s' rest
    | .error _ => none

/-- Reference formulation of the source list, written from the
specification's words rather than from the code: exactly one
`SourceReference` per distinct `document_id` appearing in the ranked
results, in first-occurrence order, each carrying the filename and
relevance score of that document's first-occurring (highest-ranked)
chunk. -/
def sourcesSpec : List (Chunk × ℚ) → List Source
  | [] => []
  | (chunk, score) :: rest =>
    ⟨chunk.document_id, chunk.filename, score⟩
      :: sourcesSpec
        (rest.filter (fun p => p.1.document_id ≠ chunk.document_id))
termination_by l => l.length
decreasing_by
  simpa using Nat.lt_succ_of_le (List.length_filter_le _ rest)

end RAG

namespace Chat

open RAG

/-- The record `ChatService` caches for a query: the JSON object
`{"response": ..., "sources": ...}`. -/
structure CacheEntry where
  response : String
  sources : List Source
deriving Repr, DecidableEq

/-- The Redis response cache, modelled as an association list from the
query string to its cached record; the code keys by
`chat:{md5(query)}` and distinct queries get distinct keys. -/
abbrev Cache := List (String × CacheEntry)

/-- `ChatService._get_cached_response(query)` (chat_service.py lines
58-80): look the key up, `None` on a miss. -/
def get_cached_response (cache : Cache) (query : String) :
    Option CacheEntry :=
  (cache.find? (fun p => p.1 == query)).map (fun p => p.2)

/-- `ChatService._cache_response(query, response)` (chat_service.py lines
82-102): `setex` overwrites the key unconditionally; the most recent
binding wins on lookup. -/
def cache_response (cache : Cache) (query : String) (entry : CacheEntry) :
    Cache :=
  (query, entry) :: cache

/-- `ChatService._build_prompt(query, context)` (chat_service.py lines
104-132): the fixed grounding template with the context and the query
interpolated. -/
def build_prompt (query context : String) : String :=
  "You are an AI assistant that answers questions based ONLY on the provided context from uploaded documents.\n\nCRITICAL RULES:\n1. Answer ONLY using information from the context below\n2. If the context doesn\x27t contain relevant information, say \"I don\x27t have enough information in the uploaded documents to answer this question.\"\n3. Do NOT use external knowledge or make assumptions\n4. Cite specific parts of the context when answering\n5. Be concise and accurate\n\nCONTEXT FROM DOCUMENTS:\n"
    ++ context ++ "\n\nUSER QUESTION:\n" ++ query ++ "\n\nANSWER:"

/-- The canned answer returned when retrieval produced no context
(chat_service.py line 155). -/
def noDocumentsAnswer : String :=
  "I don\x27t have any documents to answer your question. Please upload some documents first."

/-- A generation backend: for each prompt, either the text of
`json["response"]`, or the `str(e)` of the exception the call raised
(transport failure or `raise_for_status`). -/
abbrev GenBackend := String → Except String String

/-- `ChatService.query(user_query)` (chat_service.py lines 134-189):
cache lookup first (hit returns `(cached["response"], cached["sources"],
True)`); then retrieval; empty context returns the canned answer with no
sources, uncached; otherwise build the prompt and call Ollama — on
success the stripped response text, on failure
`f"Error generating response: {str(e)}"` with `sources = []` — and in
both cases `_cache_response` stores `{"response": ..., "sources": ...}`
before returning with `cached = False`.  An embedding failure inside
retrieval propagates out (there is no `try` around
`get_context_for_query`). -/
def query (gen : GenBackend) (backend : EmbedBackend) (top_k : Nat)
    (rag : RAGState) (cache : Cache) (user_query : String) :
    Except EmbedErr (String × List Source × Bool × Cache) :=
  match get_cached_response cache user_query with
  | some entry => .ok (entry.response, entry.sources, true, cache)
  | none =>
    match get_context_for_query backend top_k rag user_query with
    | .error e => .error e
    | .ok (context, sources) =>
      if context = "" then
        .ok (noDocumentsAnswer, [], false, cache)
      else
        match gen (build_prompt user_query context) with
        | .ok text =>
            let response := text.trim
            .ok (response, sources, false,
                 cache_response cache user_query ⟨response, sources⟩)
        | .error e =>
            let response := "Error generating response: " ++ e
            .ok (response, [], false,
                 cache_response cache user_query ⟨response, []⟩)

end Chat

deriving instance DecidableEq for Except

namespace Demo

open RAG Chat

/-- The 768-dimensional zero vector (the `nomic-embed-text` dimension). -/
def vec768 : Vec := List.replicate 768 0

/-- A backend answering every embedding request with `vec768`. -/
def backend768 : EmbedBackend := fun _ => .success vec768

/-- A splitter producing the two chunks "alpha" and "beta" for any
content. -/
def splitTwo : String → List String := fun _ => ["alpha", "beta"]

/-- A backend that embeds "alpha" and raises a connection error on any
other text, in particular on "beta". -/
def backendFailBeta : EmbedBackend := fun t =>
  if t = "alpha" then .success vec768 else .transportError

/-- A backend answering every request with a vector of length 2, not
768. -/
def backendShort : EmbedBackend := fun _ => .success [0, 0]

/-- Chunk-metadata fixtures: two chunks of the same document. -/
def chunkA : Chunk := ⟨1, "a.txt", 0, "alpha"⟩

/-- Second chunk of the same document as `chunkA`. -/
def chunkB : Chunk := ⟨1, "a.txt", 1, "beta"⟩

/-- A loaded service state with two rows; the claims on
`search_similar`/`query` hold for every state, and one-dimensional row
vectors keep the concrete arithmetic small. -/
def stateAB : RAGState := ⟨[[0], [1]], [chunkA, chunkB]⟩

/-- A state whose two rows are identical vectors (as produced by indexing
identical content twice): both rows are at distance 0 from the query
embedding `[0]`. -/
def stateTie : RAGState := ⟨[[0], [0]], [chunkA, chunkB]⟩

/-- A backend embedding every text to `[0]`. -/
def backend0 : EmbedBackend := fun _ => .success [0]

/-- A generation backend whose call always raises with message "boom". -/
def genFail : GenBackend := fun _ => .error "boom"

/-- A generation backend that always answers "ok". -/
def genOk : GenBackend := fun _ => .ok "ok"

end Demo

open RAG Chat

theorem chunkRecordsFrom_length (d : Int) (f : String) (i : Nat)
    (chunks : List String) :
    (chunkRecordsFrom d f i chunks).length = chunks.length := by
  induction chunks generalizing i with
  | nil => rfl
  | cons c rest ih => simp [chunkRecordsFrom, ih]

theorem embedChunks_ok {b : EmbedBackend} {d : Int} {f : String}
    {chunks : List String} {i : Nat} {vs : List Vec} {docs : List Chunk}
    (h : embedChunks b d f chunks i = .ok (vs, docs)) :
    docs = chunkRecordsFrom d f i chunks ∧ vs.length = chunks.length := by
  induction chunks generalizing i vs docs with
  | nil =>
    simp only [embedChunks, Except.ok.injEq, Prod.mk.injEq] at h
    simp [chunkRecordsFrom, ← h.1, ← h.2]
  | cons c rest ih =>
    simp only [embedChunks] at h
    cases hg : get_embedding b c with
    | error e => rw [hg] at h; exact absurd h (by simp)
    | ok v =>
      rw [hg] at h
      cases hrec : embedChunks b d f rest (i + 1) with
      | error p => rw [hrec] at h; exact absurd h (by simp)
      | ok p =>
        obtain ⟨vs', docs'⟩ := p
        rw [hrec] at h
        simp only [Except.ok.injEq, Prod.mk.injEq] at h
        obtain ⟨hdocs', hlen'⟩ := ih hrec
        simp [chunkRecordsFrom, ← h.1, ← h.2, hdocs', hlen']

theorem embedChunks_error {b : EmbedBackend} {d : Int} {f : String}
    {chunks : List String} {i : Nat} {e : EmbedErr} {docs : List Chunk}
    (h : embedChunks b d f chunks i = .error (e, docs)) :
    ∃ j, j ≤ chunks.length ∧
      docs = (chunkRecordsFrom d f i chunks).take j := by
  induction chunks generalizing i docs e with
  | nil => exact absurd h (by simp [embedChunks])
  | cons c rest ih =>
    simp only [embedChunks] at h
    cases hg : get_embedding b c with
    | error e' =>
      rw [hg] at h
      simp only [Except.error.injEq, Prod.mk.injEq] at h
      exact ⟨0, by simp, by simp [← h.2]⟩
    | ok v =>
      rw [hg] at h
      cases hrec : embedChunks b d f rest (i + 1) with
      | error p =>
        obtain ⟨e', docs'⟩ := p
        rw [hrec] at h
        simp only [Except.error.injEq, Prod.mk.injEq] at h
        obtain ⟨j, hj, hdocs'⟩ := ih hrec
        refine ⟨j + 1, by simpa using hj, ?_⟩
        simp [← h.1, ← h.2, chunkRecordsFrom, hdocs']
      | ok p => rw [hrec] at h; exact absurd h (by simp)

theorem faissAdd_ok {index embs newIndex : List Vec}
    (h : faissAdd index embs = .ok newIndex) :
    newIndex = index ++ embs := by
  unfold faissAdd at h
  split at h
  · exact absurd h (by simp)
  · split at h
    · simpa using h.symm
    · exact absurd h (by simp)

theorem index_document_ok_lengths {split : String → List String}
    {b : EmbedBackend} {d : Int} {f c : String} {s s' : RAGState}
    {ref : String}
    (h : index_document split b d f c s = .ok (s', ref)) :
    s'.index.length = s.index.length + (split c).length ∧
    s'.documents.length = s.documents.length + (split c).length := by
  simp only [index_document] at h
  cases hec : embedChunks b d f (split c) 0 with
  | error p => obtain ⟨e, docs⟩ := p; rw [hec] at h; exact absurd h (by simp)
  | ok p =>
    obtain ⟨vs, docs⟩ := p
    rw [hec] at h
    simp only [] at h
    obtain ⟨hdocs, hvs⟩ := embedChunks_ok hec
    cases hfa : faissAdd s.index vs with
    | error u => rw [hfa] at h; exact absurd h (by simp)
    | ok newIndex =>
      rw [hfa] at h
      have hnew := faissAdd_ok hfa
      simp only [Except.ok.injEq, Prod.mk.injEq] at h
      have hdl : docs.length = (split c).length := by
        rw [hdocs]; exact chunkRecordsFrom_length d f 0 (split c)
      constructor
      · rw [← h.1, hnew]; simp [hvs]
      · rw [← h.1]; simp [hdl]

/-- C3: after every sequence of successful `index_document` calls starting
from an aligned (e.g. empty or consistently loaded) state, the number of
vectors in the FAISS index equals the number of chunk-metadata records in
`self.documents`: each successful call appends exactly one metadata record
per appended vector. -/
theorem index_document_preserves_alignment (s s' : RAGState)
    (calls : List IndexCall)
    (h0 : s.index.length = s.documents.length)
    (h : runIndexCalls s calls = some s') :
    s'.index.length = s'.documents.length := by
  induction calls generalizing s with
  | nil =>
    simp only [runIndexCalls, Option.some.injEq] at h
    rw [← h]; exact h0
  | cons call rest ih =>
    obtain ⟨split, bk, d, f, c⟩ := call
    simp only [runIndexCalls] at h
    cases hid : index_document split bk d f c s with
    | error e => rw [hid] at h; exact absurd h (by simp)
    | ok p =>
      obtain ⟨s1, ref⟩ := p
      rw [hid] at h
      obtain ⟨hi, hd⟩ := index_document_ok_lengths hid
      exact ih s1 (by omega) h

set_option maxRecDepth 10000 in
/-- Witness for C3: one concrete successful call on the empty state; both
hypotheses are discharged by evaluation, and the resulting state is
aligned. -/
theorem index_document_preserves_alignment_witness :
    (⟨[], []⟩ : RAGState).index.length
        = (⟨[], []⟩ : RAGState).documents.length ∧
    runIndexCalls ⟨[], []⟩
        [(fun _ => ["alpha"], Demo.backend768, 1, "a.txt", "alpha")]
      = some ⟨[Demo.vec768], [⟨1, "a.txt", 0, "alpha"⟩]⟩ ∧
    (⟨[Demo.vec768], [⟨1, "a.txt", 0, "alpha"⟩]⟩ : RAGState).index.length
      = (⟨[Demo.vec768], [⟨1, "a.txt", 0, "alpha"⟩]⟩ : RAGState).documents.length :=
  ⟨rfl, by decide,
    index_document_preserves_alignment ⟨[], []⟩
      ⟨[Demo.vec768], [⟨1, "a.txt", 0, "alpha"⟩]⟩
      [(fun _ => ["alpha"], Demo.backend768, 1, "a.txt", "alpha")]
      rfl (by decide)⟩

theorem sqDist_nonneg (u v : Vec) : 0 ≤ sqDist u v := by
  apply List.sum_nonneg
  intro x hx
  simp only [sqDist, List.mem_map] at hx
  obtain ⟨p, hp, rfl⟩ := hx
  positivity

theorem sim_antitone {d₁ d₂ : ℚ} (h0 : 0 ≤ d₁) (h : d₁ ≤ d₂) :
    1 / (1 + d₂) ≤ 1 / (1 + d₁) :=
  one_div_le_one_div_of_le (by linarith) (by linarith)

theorem sim_strict_anti {d₁ d₂ : ℚ} (h0 : 0 ≤ d₁) (h : d₁ < d₂) :
    1 / (1 + d₂) < 1 / (1 + d₁) :=
  one_div_lt_one_div_of_lt (by linarith) (by linarith)

theorem sim_pos {d : ℚ} (h : 0 ≤ d) : 0 < 1 / (1 + d) :=
  one_div_pos.mpr (by linarith)

theorem sim_le_one {d : ℚ} (h : 0 ≤ d) : 1 / (1 + d) ≤ 1 := by
  rw [div_le_one (by linarith)]
  linarith

theorem mem_faissSearch {index : List Vec} {qv : Vec} {k : Nat}
    {p : Nat × ℚ} (h : p ∈ faissSearch index qv k) :
    ∃ hi : p.1 < index.length,
      p.2 = sqDist qv (index.get ⟨p.1, hi⟩) := by
  have h1 : p ∈ index.enum.map (fun r => (r.1, sqDist qv r.2)) := by
    have h2 := List.mem_of_mem_take h
    rwa [List.mem_insertionSort] at h2
  simp only [List.mem_map] at h1
  obtain ⟨r, hr, hpr⟩ := h1
  obtain ⟨i, v⟩ := r
  rw [List.mk_mem_enum_iff_getElem?] at hr
  rw [List.getElem?_eq_some] at hr
  obtain ⟨hi, hget⟩ := hr
  subst hpr
  refine ⟨hi, ?_⟩
  simp only [List.get_eq_getElem]
  rw [hget]

theorem faissSearch_distances_nonneg {index : List Vec} {qv : Vec}
    {k : Nat} {p : Nat × ℚ} (h : p ∈ faissSearch index qv k) : 0 ≤ p.2 := by
  obtain ⟨hi, hd⟩ := mem_faissSearch h
  rw [hd]
  exact sqDist_nonneg _ _

theorem faissSearch_sorted (index : List Vec) (qv : Vec) (k : Nat) :
    (faissSearch index qv k).Pairwise (fun a b => a.2 ≤ b.2) := by
  haveI : IsTotal (Nat × ℚ) (fun a b => a.2 ≤ b.2) :=
    ⟨fun a b => le_total _ _⟩
  haveI : IsTrans (Nat × ℚ) (fun a b => a.2 ≤ b.2) :=
    ⟨fun _ _ _ hab hbc => le_trans hab hbc⟩
  exact List.Pairwise.sublist (List.take_sublist _ _)
    (List.sorted_insertionSort _ _)

theorem faissSearch_length (index : List Vec) (qv : Vec) (k : Nat) :
    (faissSearch index qv k).length = min k index.length := by
  simp [faissSearch]

theorem length_filterMap_eq_filter {α β : Type} (f : α → Option β)
    (pr : α → Bool) (hfp : ∀ a, (f a).isSome = pr a) (l : List α) :
    (l.filterMap f).length = (l.filter pr).length := by
  induction l with
  | nil => rfl
  | cons a l ih =>
    have h := hfp a
    cases hfa : f a with
    | none =>
      rw [hfa] at h
      simp only [List.filterMap_cons, List.filter_cons, hfa, ← h,
        Option.isSome_none, Bool.false_eq_true, if_false]
      exact ih
    | some b =>
      rw [hfa] at h
      simp only [List.filterMap_cons, List.filter_cons, hfa, ← h,
        Option.isSome_some, if_true, List.length_cons]
      exact congrArg Nat.succ ih

/-- C10: on every state, including misaligned ones where the index holds
more rows than the metadata list, `search_similar` never fails on metadata
lookup: it either short-circuits on an empty index, fails only because the
query embedding call failed, or succeeds with exactly the search rows
whose id passes the `idx < len(self.documents)` guard (rows with larger id
are silently dropped), each returned chunk being the stored metadata
record at its row id with similarity `1 / (1 + distance)`. -/
theorem search_similar_safe_on_misaligned (b : EmbedBackend) (k : Nat)
    (s : RAGState) (q : String) :
    (s.index.length = 0 ∧ search_similar b k s q = .ok []) ∨
    (∃ e, get_embedding b q = .error e ∧
      search_similar b k s q = .error e) ∨
    (∃ qv res, get_embedding b q = .ok qv ∧
      search_similar b k s q = .ok res ∧
      res.length = ((faissSearch s.index qv (min k s.index.length)).filter
          (fun p => decide (p.1 < s.documents.length))).length ∧
      ∀ p ∈ res, ∃ r ∈ faissSearch s.index qv (min k s.index.length),
        ∃ hi : r.1 < s.documents.length,
          p = (s.documents.get ⟨r.1, hi⟩, 1 / (1 + r.2))) := by
  by_cases hlen : s.index.length = 0
  · left
    exact ⟨hlen, by simp [search_similar, hlen]⟩
  · right
    cases hemb : get_embedding b q with
    | error e =>
      left
      exact ⟨e, rfl, by simp [search_similar, hlen, hemb]⟩
    | ok qv =>
      right
      refine ⟨qv,
        (faissSearch s.index qv (min k s.index.length)).filterMap
          (fun p => if h : p.1 < s.documents.length then
            some (s.documents.get ⟨p.1, h⟩, 1 / (1 + p.2)) else none),
        rfl, by simp [search_similar, hlen, hemb], ?_, ?_⟩
      · apply length_filterMap_eq_filter
        intro a
        by_cases h : a.1 < s.documents.length <;> simp [h]
      · intro p hp
        rw [List.mem_filterMap] at hp
        obtain ⟨r, hr, hfr⟩ := hp
        by_cases hi : r.1 < s.documents.length
        · rw [dif_pos hi] at hfr
          exact ⟨r, hr, hi, by simpa using hfr.symm⟩
        · rw [dif_neg hi] at hfr
          exact absurd hfr (by simp)

/-- Concrete evaluation: searching `Demo.stateAB` with the constant-`[0]`
embedding backend ranks the row at distance 0 (similarity 1) above the row
at distance 1 (similarity 1/2). -/
theorem stateAB_search_eval :
    search_similar Demo.backend0 5 Demo.stateAB "q"
      = .ok [(Demo.chunkA, 1), (Demo.chunkB, 1 / 2)] := by
  norm_num [search_similar, get_embedding, Demo.backend0, Demo.stateAB,
    faissSearch, sqDist, List.filterMap_cons, List.getElem_cons_succ,
    List.getElem_cons_zero]
  rfl

/-- Concrete evaluation: searching `Demo.stateTie`, whose two rows are the
same vector, returns two results with equal distance 0 and equal
similarity 1. -/
theorem stateTie_search_eval :
    search_similar Demo.backend0 5 Demo.stateTie "q"
      = .ok [(Demo.chunkA, 1), (Demo.chunkB, 1)] := by
  norm_num [search_similar, get_embedding, Demo.backend0, Demo.stateTie,
    faissSearch, sqDist, List.filterMap_cons, List.getElem_cons_succ,
    List.getElem_cons_zero]

/-- Concrete evaluation: the context and deduplicated sources built over
`Demo.stateAB` (both chunks belong to document 1, so one source survives,
carrying the top-ranked chunk's similarity 1). -/
theorem stateAB_context_eval :
    get_context_for_query Demo.backend0 5 Demo.stateAB "q"
      = .ok ("alpha\n\n---\n\nbeta", [⟨1, "a.txt", 1⟩]) := by
  rw [get_context_for_query, stateAB_search_eval]
  norm_num [buildSources, Demo.chunkA, Demo.chunkB]
  rfl

/-- C6 (amended): `search_similar(q, k)` returns a sequence sorted by
descending similarity — non-strictly: rows at equal distance, e.g.
identical vectors indexed twice, yield equal similarities — of length at
most `k` and at most the index size; each similarity equals
`1 / (1 + d)` for the squared L2 distance `d` of the query embedding to a
stored vector, lies in (0, 1] since distances are non-negative, and the
map from distance to similarity is strictly decreasing. -/
theorem search_similar_ranking (b : EmbedBackend) (k : Nat) (s : RAGState)
    (q : String) (res : List (Chunk × ℚ))
    (h : search_similar b k s q = .ok res) :
    res.Pairwise (fun x y => y.2 ≤ x.2) ∧
    res.length ≤ k ∧ res.length ≤ s.index.length ∧
    (∀ p ∈ res, ∃ qv, get_embedding b q = .ok qv ∧
      ∃ v ∈ s.index, p.2 = 1 / (1 + sqDist qv v) ∧ 0 < p.2 ∧ p.2 ≤ 1) ∧
    (∀ d₁ d₂ : ℚ, 0 ≤ d₁ → d₁ < d₂ →
      1 / (1 + d₂) < 1 / (1 + d₁)) := by
  simp only [search_similar] at h
  by_cases hlen : s.index.length = 0
  · rw [if_pos hlen] at h
    obtain rfl : ([] : List (Chunk × ℚ)) = res := by simpa using h
    exact ⟨by simp, by simp, by simp, by simp,
      fun d₁ d₂ h0 hlt => sim_strict_anti h0 hlt⟩
  · rw [if_neg hlen] at h
    cases hemb : get_embedding b q with
    | error e => rw [hemb] at h; exact absurd h (by simp)
    | ok qv =>
      rw [hemb] at h
      simp only [Except.ok.injEq] at h
      subst h
      set rows := faissSearch s.index qv (min k s.index.length) with hrows
      have hnn : ∀ r ∈ rows, 0 ≤ r.2 := fun r hr =>
        faissSearch_distances_nonneg hr
      refine ⟨?_, ?_, ?_, ?_, fun d₁ d₂ h0 hlt => sim_strict_anti h0 hlt⟩
      · have hs0 : rows.Pairwise (fun a c => a.2 ≤ c.2) :=
          faissSearch_sorted _ _ _
        have hs1 : rows.Pairwise (fun a c => 0 ≤ a.2 ∧ a.2 ≤ c.2) :=
          List.Pairwise.imp_of_mem
            (fun ha hc hle => ⟨hnn _ ha, hle⟩) hs0
        refine List.Pairwise.filterMap _ ?_ hs1
        intro a c hac x hx y hy
        by_cases h1 : a.1 < s.documents.length
        · rw [dif_pos h1, Option.mem_def, Option.some.injEq] at hx
          by_cases h2 : c.1 < s.documents.length
          · rw [dif_pos h2, Option.mem_def, Option.some.injEq] at hy
            rw [← hx, ← hy]
            exact sim_antitone hac.1 hac.2
          · rw [dif_neg h2] at hy; exact absurd hy (by simp)
        · rw [dif_neg h1] at hx; exact absurd hx (by simp)
      · calc _ ≤ rows.length := List.length_filterMap_le _ _
          _ = min (min k s.index.length) s.index.length :=
            faissSearch_length _ _ _
          _ ≤ k := le_trans (min_le_left _ _) (min_le_left _ _)
      · calc _ ≤ rows.length := List.length_filterMap_le _ _
          _ = min (min k s.index.length) s.index.length :=
            faissSearch_length _ _ _
          _ ≤ s.index.length := min_le_right _ _
      · intro p hp
        rw [List.mem_filterMap] at hp
        obtain ⟨r, hr, hfr⟩ := hp
        by_cases hi : r.1 < s.documents.length
        · rw [dif_pos hi, Option.some.injEq] at hfr
          obtain ⟨hlt, hd⟩ := mem_faissSearch hr
          refine ⟨qv, rfl, s.index.get ⟨r.1, hlt⟩, List.get_mem _ _ _, ?_⟩
          have hps : p.2 = 1 / (1 + r.2) := by rw [← hfr]
          have hdn : 0 ≤ r.2 := hnn r hr
          refine ⟨by rw [hps, hd], ?_, ?_⟩
          · rw [hps]; exact sim_pos hdn
          · rw [hps]; exact sim_le_one hdn
        · rw [dif_neg hi] at hfr
          exact absurd hfr (by simp)

/-- C6 counterexample: with two identical vectors in the index (the same
content indexed twice) both search rows are at distance 0, so the two
similarities are equal and the result is not sorted by *strictly*
descending similarity. -/
theorem search_similar_strict_cex :
    search_similar Demo.backend0 5 Demo.stateTie "q"
      = .ok [(Demo.chunkA, 1), (Demo.chunkB, 1)] ∧
    ¬ ([(Demo.chunkA, 1), (Demo.chunkB, 1)] : List (Chunk × ℚ)).Pairwise
        (fun x y => y.2 < x.2) := by
  refine ⟨stateTie_search_eval, fun hp => ?_⟩
  rw [List.pairwise_cons] at hp
  have h1 := hp.1 (Demo.chunkB, 1) (by simp)
  norm_num at h1

/-- Witness for C6 at a concrete two-row state: the search succeeds,
and its conclusion (ordering, bounds) is obtained from
`search_similar_ranking` with every hypothesis discharged by
evaluation. -/
theorem search_similar_ranking_witness :
    search_similar Demo.backend0 5 Demo.stateAB "q"
      = .ok [(Demo.chunkA, 1), (Demo.chunkB, 1 / 2)] ∧
    ([(Demo.chunkA, 1), (Demo.chunkB, 1 / 2)] : List (Chunk × ℚ)).Pairwise
      (fun x y => y.2 ≤ x.2) ∧
    ([(Demo.chunkA, 1), (Demo.chunkB, 1 / 2)] : List (Chunk × ℚ)).length ≤ 5 ∧
    ([(Demo.chunkA, 1), (Demo.chunkB, 1 / 2)] : List (Chunk × ℚ)).length
      ≤ Demo.stateAB.index.length :=
  ⟨stateAB_search_eval,
    (search_similar_ranking Demo.backend0 5 Demo.stateAB "q" _
      stateAB_search_eval).1,
    (search_similar_ranking Demo.backend0 5 Demo.stateAB "q" _
      stateAB_search_eval).2.1,
    (search_similar_ranking Demo.backend0 5 Demo.stateAB "q" _
      stateAB_search_eval).2.2.1⟩

/-- C7: a query issued while the vector index is empty returns the canned
"no documents" answer with empty sources and `cache_hit = False`, writes
nothing to the cache, and the underlying retrieval returns the
empty-context signal `("", [])`; the result holds for every generation
backend and every embedding backend (the code short-circuits before
calling either). -/
theorem query_empty_index (gen : GenBackend) (b : EmbedBackend) (k : Nat)
    (s : RAGState) (cache : Cache) (q : String)
    (hidx : s.index = [])
    (hmiss : get_cached_response cache q = none) :
    Chat.query gen b k s cache q
        = .ok (noDocumentsAnswer, [], false, cache) ∧
    get_context_for_query b k s q = .ok ("", []) := by
  have hss : search_similar b k s q = .ok [] := by
    simp [search_similar, hidx]
  have hctx : get_context_for_query b k s q = .ok ("", []) := by
    simp [get_context_for_query, hss]
  refine ⟨?_, hctx⟩
  simp [Chat.query, hmiss, hctx]

/-- Witness for C7 at the empty state with an empty cache. -/
theorem query_empty_index_witness :
    (⟨[], []⟩ : RAGState).index = ([] : List Vec) ∧
    get_cached_response ([] : Cache) "anything" = none ∧
    Chat.query Demo.genOk Demo.backend0 5 ⟨[], []⟩ [] "anything"
      = .ok (noDocumentsAnswer, [], false, []) :=
  ⟨rfl, rfl,
    (query_empty_index Demo.genOk Demo.backend0 5 ⟨[], []⟩ [] "anything"
      rfl rfl).1⟩

/-- C1 (amended): if `index_document` fails — an embedding call failing at
some chunk position, or the final `index.add` failing — the vector index
is left unchanged, but the chunk-metadata store is left extended by the
records of the chunks processed before the failure (a prefix of the
batch's chunk records); both structures are unchanged only when that
prefix is empty, so the all-or-nothing batch guarantee does not hold. -/
theorem index_document_partial_failure (split : String → List String)
    (b : EmbedBackend) (d : Int) (f c : String) (s s' : RAGState)
    (err : IndexErr)
    (h : index_document split b d f c s = .error (err, s')) :
    s'.index = s.index ∧
    ∃ j, j ≤ (split c).length ∧
      s'.documents = s.documents ++ (chunkRecords d f (split c)).take j := by
  simp only [index_document] at h
  cases hec : embedChunks b d f (split c) 0 with
  | error p =>
    obtain ⟨e, docs⟩ := p
    rw [hec] at h
    simp only [Except.error.injEq, Prod.mk.injEq] at h
    obtain ⟨j, hj, hdocs⟩ := embedChunks_error hec
    refine ⟨by rw [← h.2], j, hj, ?_⟩
    rw [← h.2]
    simp [chunkRecords, hdocs]
  | ok p =>
    obtain ⟨vs, docs⟩ := p
    rw [hec] at h
    simp only [] at h
    obtain ⟨hdocs, hvs⟩ := embedChunks_ok hec
    cases hfa : faissAdd s.index vs with
    | error u =>
      rw [hfa] at h
      simp only [Except.error.injEq, Prod.mk.injEq] at h
      refine ⟨by rw [← h.2], (split c).length, le_refl _, ?_⟩
      rw [← h.2]
      have : (chunkRecords d f (split c)).take (split c).length
          = chunkRecords d f (split c) := by
        apply List.take_of_length_le
        rw [chunkRecords, chunkRecordsFrom_length]
      rw [this]
      simp [chunkRecords, hdocs]
    | ok newIndex => rw [hfa] at h; exact absurd h (by simp)

set_option maxRecDepth 10000 in
/-- C1 counterexample: content split into the chunks "alpha", "beta"; the
backend embeds "alpha" and raises on "beta".  `index_document` raises, yet
the chunk-metadata store has received the record for "alpha" while the
vector index received nothing — the two structures are left misaligned,
refuting the claim that a partial embedding failure leaves both exactly as
they were. -/
theorem index_document_atomicity_cex :
    index_document Demo.splitTwo Demo.backendFailBeta 1 "a.txt" "ab"
        ⟨[], []⟩
      = .error (.embed .transport, ⟨[], [Demo.chunkA]⟩) ∧
    (⟨[], [Demo.chunkA]⟩ : RAGState).documents
      ≠ (⟨[], []⟩ : RAGState).documents := by
  exact ⟨by decide, by decide⟩

set_option maxRecDepth 10000 in
/-- Witness for C1 (amended) at the same failing call: the error state has
the untouched index and a one-record prefix of the batch's chunk
records appended to the metadata store. -/
theorem index_document_partial_failure_witness :
    index_document Demo.splitTwo Demo.backendFailBeta 1 "a.txt" "ab"
        ⟨[], []⟩
      = .error (.embed .transport, ⟨[], [Demo.chunkA]⟩) ∧
    ((⟨[], [Demo.chunkA]⟩ : RAGState).index = (⟨[], []⟩ : RAGState).index ∧
      ∃ j, j ≤ (Demo.splitTwo "ab").length ∧
        (⟨[], [Demo.chunkA]⟩ : RAGState).documents
          = (⟨[], []⟩ : RAGState).documents
            ++ (chunkRecords 1 "a.txt" (Demo.splitTwo "ab")).take j) :=
  ⟨by decide,
    index_document_partial_failure Demo.splitTwo Demo.backendFailBeta
      1 "a.txt" "ab" ⟨[], []⟩ ⟨[], [Demo.chunkA]⟩ (.embed .transport)
      (by decide)⟩

/-- C4 (amended): `_get_embedding` performs no dimension validation — a
successful backend response is returned as-is even when its length differs
from the configured dimension (768); a transport error or a non-success
response makes the call fail by re-raising the underlying exception (the
cause stays distinguishable, though no `BackendUnavailable`/`BackendError`/
`InvalidResponse` taxonomy exists in the code). -/
theorem get_embedding_no_dimension_check (b : EmbedBackend) (t : String)
    (v : Vec) (h : b t = .success v) (hdim : v.length ≠ dimension) :
    get_embedding b t = .ok v ∧
    (∀ (b' : EmbedBackend) (t' : String), b' t' = .transportError →
      get_embedding b' t' = .error .transport) ∧
    (∀ (b' : EmbedBackend) (t' : String) (code : Nat),
      b' t' = .httpError code →
      get_embedding b' t' = .error (.http code)) := by
  refine ⟨by simp [get_embedding, h], ?_, ?_⟩
  · intro b' t' h'
    simp [get_embedding, h']
  · intro b' t' code h'
    simp [get_embedding, h']

/-- C4 counterexample: the backend answers with a vector of length 2 ≠
768, and `_get_embedding` returns it as a successful embedding instead of
failing with an `InvalidResponse`-style error. -/
theorem get_embedding_dimension_cex :
    get_embedding Demo.backendShort "x" = .ok [0, 0] ∧
    ([0, 0] : Vec).length ≠ dimension :=
  ⟨rfl, by decide⟩

/-- Witness for C4 (amended) at the length-2 response. -/
theorem get_embedding_no_dimension_check_witness :
    Demo.backendShort "x" = .success [0, 0] ∧
    ([0, 0] : Vec).length ≠ dimension ∧
    get_embedding Demo.backendShort "x" = .ok [0, 0] :=
  ⟨rfl, by decide,
    (get_embedding_no_dimension_check Demo.backendShort "x" [0, 0]
      rfl (by decide)).1⟩

theorem buildSources_eq_filter (seen : List Int) (l : List (Chunk × ℚ)) :
    buildSources seen l
      = sourcesSpec (l.filter (fun p => p.1.document_id ∉ seen)) := by
  induction l generalizing seen with
  | nil => simp [buildSources, sourcesSpec]
  | cons hd rest ih =>
    obtain ⟨chunk, score⟩ := hd
    by_cases hmem : chunk.document_id ∈ seen
    · rw [buildSources, if_pos hmem, List.filter_cons,
        if_neg (by simpa using hmem)]
      exact ih seen
    · rw [buildSources, if_neg hmem, List.filter_cons,
        if_pos (by simpa using hmem), sourcesSpec, ih]
      have hff : (rest.filter
            (fun p => p.1.document_id ∉ chunk.document_id :: seen))
          = (rest.filter (fun p => p.1.document_id ∉ seen)).filter
              (fun p => p.1.document_id ≠ chunk.document_id) := by
        rw [List.filter_filter]
        apply List.filter_congr
        intro a _
        by_cases h1 : a.1.document_id = chunk.document_id <;>
          by_cases h2 : a.1.document_id ∈ seen <;> simp [h1, h2]
      rw [hff]

/-- C9: the source list built by `get_context_for_query` is exactly the
first-occurrence deduplication of the ranked results by `document_id`:
one source per distinct document, in first-occurrence order, each carrying
the filename and relevance score of that document's highest-ranked chunk
(`sourcesSpec` is the reference function written from the specification's
words). -/
theorem get_context_sources_spec (b : EmbedBackend) (k : Nat)
    (s : RAGState) (q ctx : String) (srcs : List Source)
    (h : get_context_for_query b k s q = .ok (ctx, srcs)) :
    ∃ results, search_similar b k s q = .ok results ∧
      srcs = sourcesSpec results := by
  simp only [get_context_for_query] at h
  cases hss : search_similar b k s q with
  | error e => rw [hss] at h; exact absurd h (by simp)
  | ok results =>
    rw [hss] at h
    refine ⟨results, rfl, ?_⟩
    cases results with
    | nil =>
      simp only [Except.ok.injEq, Prod.mk.injEq] at h
      rw [← h.2]
      simp [sourcesSpec]
    | cons r rs =>
      simp only [Except.ok.injEq, Prod.mk.injEq] at h
      rw [← h.2, buildSources_eq_filter]
      congr 1
      apply List.filter_eq_self.mpr
      intro a _
      simp

/-- Witness for C9 over `Demo.stateAB`: both ranked chunks belong to
document 1, so exactly one source survives, carrying the top-ranked
chunk's score. -/
theorem get_context_sources_spec_witness :
    get_context_for_query Demo.backend0 5 Demo.stateAB "q"
      = .ok ("alpha\n\n---\n\nbeta", [⟨1, "a.txt", 1⟩]) ∧
    ∃ results, search_similar Demo.backend0 5 Demo.stateAB "q"
        = .ok results ∧
      ([⟨1, "a.txt", 1⟩] : List Source) = sourcesSpec results :=
  ⟨stateAB_context_eval,
    get_context_sources_spec Demo.backend0 5 Demo.stateAB "q"
      "alpha\n\n---\n\nbeta" [⟨1, "a.txt", 1⟩] stateAB_context_eval⟩

theorem get_cached_response_cache_response (cache : Cache) (q : String)
    (e : CacheEntry) :
    get_cached_response (cache_response cache q e) q = some e := by
  simp [get_cached_response, cache_response, List.find?]

/-- C8 (amended): with caching operational and the cache initially free of
the query, two immediately successive identical `query` calls yield
`cache_hit = False` then `True` with identical answer and sources —
provided retrieval finds non-empty context.  (On the empty-context canned
path, nothing is cached and both calls return `False`; because even a
failed generation is cached, the property needs no assumption on the
generation backend.) -/
theorem query_idempotence_with_context (gen : GenBackend)
    (b : EmbedBackend) (k : Nat) (s : RAGState) (cache : Cache)
    (q ctx : String) (srcs : List Source)
    (hmiss : get_cached_response cache q = none)
    (hctx : get_context_for_query b k s q = .ok (ctx, srcs))
    (hne : ctx ≠ "") :
    ∃ a ss cache2,
      Chat.query gen b k s cache q = .ok (a, ss, false, cache2) ∧
      Chat.query gen b k s cache2 q = .ok (a, ss, true, cache2) := by
  cases hgen : gen (build_prompt q ctx) with
  | ok text =>
    refine ⟨text.trim, srcs, cache_response cache q ⟨text.trim, srcs⟩,
      ?_, ?_⟩
    · simp [Chat.query, hmiss, hctx, hne, hgen]
    · simp [Chat.query, get_cached_response_cache_response]
  | error msg =>
    refine ⟨"Error generating response: " ++ msg, [],
      cache_response cache q ⟨"Error generating response: " ++ msg, []⟩,
      ?_, ?_⟩
    · simp [Chat.query, hmiss, hctx, hne, hgen]
    · simp [Chat.query, get_cached_response_cache_response]

/-- C8 counterexample: with the cache operational and empty, a query
against an empty index takes the canned-answer path, which caches
nothing, so the immediately repeated identical query still returns
`cache_hit = False` — not `True` as the claim requires for every
query. -/
theorem query_idempotence_cex :
    get_cached_response ([] : Cache) "q" = none ∧
    Chat.query Demo.genOk Demo.backend0 5 ⟨[], []⟩ [] "q"
      = .ok (noDocumentsAnswer, [], false, []) ∧
    ¬ ∃ a ss cache2,
        Chat.query Demo.genOk Demo.backend0 5 ⟨[], []⟩ [] "q"
          = .ok (a, ss, false, cache2) ∧
        Chat.query Demo.genOk Demo.backend0 5 ⟨[], []⟩ cache2 "q"
          = .ok (a, ss, true, cache2) := by
  have e1 : Chat.query Demo.genOk Demo.backend0 5 ⟨[], []⟩ [] "q"
      = .ok (noDocumentsAnswer, [], false, []) := by rfl
  refine ⟨rfl, e1, ?_⟩
  rintro ⟨a, ss, cache2, h1, h2⟩
  rw [e1] at h1
  simp only [Except.ok.injEq, Prod.mk.injEq] at h1
  obtain ⟨ha, hss, _, hcache⟩ := h1
  subst ha; subst hss; subst hcache
  rw [e1] at h2
  simp at h2

/-- Witness for C8 (amended) over `Demo.stateAB` with an operational empty
cache: first call misses, second hits with the identical answer and
sources. -/
theorem query_idempotence_with_context_witness :
    ∃ a ss cache2,
      Chat.query Demo.genOk Demo.backend0 5 Demo.stateAB [] "q"
        = .ok (a, ss, false, cache2) ∧
      Chat.query Demo.genOk Demo.backend0 5 Demo.stateAB cache2 "q"
        = .ok (a, ss, true, cache2) :=
  query_idempotence_with_context Demo.genOk Demo.backend0 5 Demo.stateAB
    [] "q" "alpha\n\n---\n\nbeta" [⟨1, "a.txt", 1⟩]
    rfl stateAB_context_eval (by decide)

/-- Concrete evaluation: over `Demo.stateAB` with a failing generation
backend, `query` returns the error-string answer with empty sources,
`cached = False`, and writes the error record into the cache. -/
theorem stateAB_query_fail_eval :
    Chat.query Demo.genFail Demo.backend0 5 Demo.stateAB [] "q"
      = .ok ("Error generating response: boom", [], false,
          [("q", ⟨"Error generating response: boom", []⟩)]) := by
  simp [Chat.query, get_cached_response, stateAB_context_eval,
    Demo.genFail, cache_response]

/-- C2 (amended): a failed generation call produces a best-effort error
string as the answer instead of raising, but the degraded result IS
written to the response cache (`_cache_response` runs unconditionally
after the `except` block), so an immediately repeated identical query
observes a cache hit returning the same error answer. -/
theorem query_error_answer_is_cached (gen : GenBackend)
    (b : EmbedBackend) (k : Nat) (s : RAGState) (cache : Cache)
    (q ctx : String) (srcs : List Source) (msg : String)
    (hmiss : get_cached_response cache q = none)
    (hctx : get_context_for_query b k s q = .ok (ctx, srcs))
    (hne : ctx ≠ "")
    (hgen : gen (build_prompt q ctx) = .error msg) :
    Chat.query gen b k s cache q
      = .ok ("Error generating response: " ++ msg, [], false,
          cache_response cache q
            ⟨"Error generating response: " ++ msg, []⟩) ∧
    get_cached_response
        (cache_response cache q
          ⟨"Error generating response: " ++ msg, []⟩) q
      = some ⟨"Error generating response: " ++ msg, []⟩ ∧
    Chat.query gen b k s
        (cache_response cache q
          ⟨"Error generating response: " ++ msg, []⟩) q
      = .ok ("Error generating response: " ++ msg, [], true,
          cache_response cache q
            ⟨"Error generating response: " ++ msg, []⟩) := by
  refine ⟨?_, get_cached_response_cache_response _ _ _, ?_⟩
  · simp [Chat.query, hmiss, hctx, hne, hgen]
  · simp [Chat.query, get_cached_response_cache_response]

/-- C2 counterexample: over `Demo.stateAB` the generation call fails with
"boom"; the error answer is cached, and the immediately repeated
identical query returns it with `cache_hit = True`, refuting "this
degraded result is never written to the response cache". -/
theorem query_error_answer_cached_cex :
    Chat.query Demo.genFail Demo.backend0 5 Demo.stateAB [] "q"
      = .ok ("Error generating response: boom", [], false,
          [("q", ⟨"Error generating response: boom", []⟩)]) ∧
    Chat.query Demo.genFail Demo.backend0 5 Demo.stateAB
        [("q", ⟨"Error generating response: boom", []⟩)] "q"
      = .ok ("Error generating response: boom", [], true,
          [("q", ⟨"Error generating response: boom", []⟩)]) :=
  ⟨stateAB_query_fail_eval, by simp [Chat.query, get_cached_response]⟩

/-- Witness for C2 (amended) at the concrete failing generation call. -/
theorem query_error_answer_is_cached_witness :
    get_cached_response ([] : Cache) "q" = none ∧
    Chat.query Demo.genFail Demo.backend0 5 Demo.stateAB [] "q"
      = .ok ("Error generating response: boom", [], false,
          cache_response [] "q"
            ⟨"Error generating response: boom", []⟩) :=
  ⟨rfl,
    (query_error_answer_is_cached Demo.genFail Demo.backend0 5
      Demo.stateAB [] "q" "alpha\n\n---\n\nbeta" [⟨1, "a.txt", 1⟩] "boom"
      rfl stateAB_context_eval (by decide) rfl).1⟩

/-- C5 (amended): when retrieval found non-empty context but the
generation call fails, `query` returns the error-string answer with an
EMPTY sources list — the `except` branch reassigns `sources = []`, so the
non-empty sources produced by retrieval are discarded, not propagated. -/
theorem query_failure_discards_sources (gen : GenBackend)
    (b : EmbedBackend) (k : Nat) (s : RAGState) (cache : Cache)
    (q ctx : String) (srcs : List Source) (msg : String)
    (hmiss : get_cached_response cache q = none)
    (hctx : get_context_for_query b k s q = .ok (ctx, srcs))
    (hne : ctx ≠ "")
    (hsrcs : srcs ≠ [])
    (hgen : gen (build_prompt q ctx) = .error msg) :
    Chat.query gen b k s cache q
      = .ok ("Error generating response: " ++ msg, [], false,
          cache_response cache q
            ⟨"Error generating response: " ++ msg, []⟩) ∧
    ([] : List Source) ≠ srcs :=
  ⟨by simp [Chat.query, hmiss, hctx, hne, hgen],
    fun hh => hsrcs hh.symm⟩

/-- C5 counterexample: over `Demo.stateAB` retrieval produces the
non-empty source list `[⟨1, "a.txt", 1⟩]`, yet after the generation
failure `query` returns an empty sources list, refuting the claim that
the returned triple carries the sources produced by retrieval. -/
theorem query_failure_sources_cex :
    get_context_for_query Demo.backend0 5 Demo.stateAB "q"
      = .ok ("alpha\n\n---\n\nbeta", [⟨1, "a.txt", 1⟩]) ∧
    ([⟨1, "a.txt", 1⟩] : List Source) ≠ [] ∧
    Chat.query Demo.genFail Demo.backend0 5 Demo.stateAB [] "q"
      = .ok ("Error generating response: boom", [], false,
          [("q", ⟨"Error generating response: boom", []⟩)]) :=
  ⟨stateAB_context_eval, by decide, stateAB_query_fail_eval⟩

/-- Witness for C5 (amended) at the concrete failing generation call. -/
theorem query_failure_discards_sources_witness :
    Chat.query Demo.genFail Demo.backend0 5 Demo.stateAB [] "q"
      = .ok ("Error generating response: boom", [], false,
          cache_response [] "q"
            ⟨"Error generating response: boom", []⟩) ∧
    ([] : List Source) ≠ [⟨1, "a.txt", 1⟩] :=
  query_failure_discards_sources Demo.genFail Demo.backend0 5
    Demo.stateAB [] "q" "alpha\n\n---\n\nbeta" [⟨1, "a.txt", 1⟩] "boom"
    rfl stateAB_context_eval (by decide) (by decide) rfl
